import Mathlib

/-!
Verification development for the ETL SATIAP Home pipeline.

The repository is a small Python batch pipeline (extract CSV, transform a
tabular dataset, stage, validate, write a spreadsheet, upload over HTTP).
This file gives a shallow embedding of the data model and of the functions
that the specification talks about, translated from the Python sources:

* `src/config/settings.py` : the mapping tables and the expected schema;
* `src/etl/validator.py`   : `validate_columns`, `reorder_columns`;
* `src/etl/transformer.py` : the positional (VBA) phase, the column
  combination steps, `apply_rating_mappings`, `apply_text_standardization`;
* `src/etl/extractor.py`   : the decode-fallback structure of `load_csv`
  and the mis-encoding fix pass;
* `src/etl/uploader.py`    : the size-based upload strategy and the chunk
  sequence of `chunked_upload`;
* `src/etl.py`             : the control flow of `run_etl` / `main` that
  determines the process exit status.

A pandas DataFrame is modelled as an ordered list of named columns, each an
ordered list of cell values (text, numeric, or null).  External effects
(file system, HTTP, SQLite) are modelled as oracles or as abstract request
plans.  Python exceptions are modelled with `Except`.
-/

set_option maxHeartbeats 1600000

namespace Etl

/-- Cell value of the tabular dataset: text, numeric, or absent (null / NaN). -/
inductive Val where
  | vstr (s : String)
  | vnum (n : Int)
  | vnull
deriving DecidableEq, Repr

/-- Tabular dataset: an ordered sequence of named columns, each an ordered
sequence of values aligned by row index. -/
structure DataFrame where
  cols : List (String × List Val)
deriving DecidableEq, Repr

/-- Column labels of the dataset, in order (pandas `df.columns`). -/
def DataFrame.names (df : DataFrame) : List String :=
  df.cols.map (fun c => c.1)

/-- Row count, taken from the first column (all columns agree on well-formed
datasets; theorems that need alignment state it as a hypothesis). -/
def DataFrame.nrows (df : DataFrame) : Nat :=
  match df.cols with
  | [] => 0
  | c :: _ => c.2.length

/-- Test for a missing value. -/
def Val.isNull : Val → Bool
  | .vnull => true
  | _ => false

/-- Test for a text value. -/
def Val.isStr : Val → Bool
  | .vstr _ => true
  | _ => false

/-- Stringification of a cell as pandas `astype(str)` performs it on an
object-typed column: strings unchanged, numbers printed, missing values
become the literal string "nan". -/
def valToString : Val → String
  | .vstr s => s
  | .vnum n => toString n
  | .vnull => "nan"

/-- Pandas dtype of a column is `object` exactly when some cell is a string
(numeric or all-null columns get a numeric dtype). -/
def isObjectCol (vs : List Val) : Bool :=
  vs.any (fun v => v.isStr)

/-- Pandas column selection `df[labels]`: for each requested label, every
column bearing that label, in dataset order. -/
def selectCols (df : DataFrame) (ns : List String) : DataFrame :=
  ⟨ns.flatMap (fun n => df.cols.filter (fun c => c.1 = n))⟩

/-- Values of the first column with the given label (pandas `df[label]`). -/
def getColVals (df : DataFrame) (n : String) : List Val :=
  match df.cols.find? (fun c => c.1 = n) with
  | some c => c.2
  | none => []

/-- Insertion of an element at a position (pandas `DataFrame.insert` slot). -/
def insertAt {α : Type} (l : List α) (i : Nat) (a : α) : List α :=
  l.take i ++ a :: l.drop i

/-- Core loop of Python `str.replace(pat, rep)` over character lists:
replace every non-overlapping occurrence of `pat`, scanning left to right
and resuming after each replaced occurrence.  `fuel` bounds the recursion
depth; the wrapper always passes `fuel = s.length`, which suffices because
every step consumes at least one character.  (All patterns used by this
repository are nonempty; for an empty pattern Python would intersperse the
replacement, a case that never arises here and is mapped to the identity.) -/
def replListF (p r : List Char) : Nat → List Char → List Char
  | _, [] => []
  | 0, s => s
  | fuel + 1, c :: cs =>
    if !p.isEmpty && p.isPrefixOf (c :: cs) then
      r ++ replListF p r fuel ((c :: cs).drop p.length)
    else
      c :: replListF p r fuel cs

/-- Python `s.replace(pat, rep)` on strings. -/
def pyReplace (s pat rep : String) : String :=
  ⟨replListF pat.data rep.data s.data.length s.data⟩

/-- Containment of `pat` as a contiguous substring (Python `pat in s`). -/
def occursIn (p : List Char) : List Char → Bool
  | [] => p.isEmpty
  | c :: cs => p.isPrefixOf (c :: cs) || occursIn p cs

/-- Python substring test on strings. -/
def strContains (s pat : String) : Bool :=
  occursIn pat.data s.data

/-- Python `str.lower()` restricted to ASCII case (the match patterns of
this repository are lowercase ASCII apart from an already-lowercase è). -/
def pyLower (s : String) : String :=
  ⟨s.data.map Char.toLower⟩

/-- Cumulative per-cell substring replacement: each mapping of the table is
applied in declaration order to the running string. -/
def cellApply (maps : List (String × String)) (s : String) : String :=
  maps.foldl (fun acc m => pyReplace acc m.1 m.2) s

/-! ## Configuration tables (src/config/settings.py) -/

/-- Rating mappings for satisfaction levels (`RATING_MAPPINGS`), a Python
dict whose iteration order is its declaration order. -/
def RATING_MAPPINGS : List (String × String) :=
  [("Trè byen", "5 Etwal"),
   ("Byen", "4 Etwal"),
   ("Pasab", "3 Etwal"),
   ("Pa bon", "2 Etwal"),
   ("Pat bon ditou", "1 Etwal"),
   ("Trè long", "Trè long"),
   ("Long", "Long"),
   ("Kout", "Kout"),
   ("Trè kout", "Trè kout"),
   ("Pa ditou", "Pa ditou"),
   ("Trè raman", "Trè raman"),
   ("raman", "raman"),
   ("Pa souvan", "Pa souvan"),
   ("Souvan", "Souvan")]

/-- Text standardization mappings (`TEXT_STANDARDIZATION`). -/
def TEXT_STANDARDIZATION : List (String × String) :=
  [("Enfimyè", "Enfimyè"),
   ("Miss", "Miss")]

/-- Columns removed by the Power Query step (`COLUMNS_TO_REMOVE`). -/
def COLUMNS_TO_REMOVE : List String :=
  ["Email Address", "First Name", "Last Name", "Custom Data 1", "language"]

/-- Mis-encoded sequence corrections (`ENCODING_FIXES`). -/
def ENCODING_FIXES : List (String × String) :=
  [("Ã´", "ô"), ("Ã©", "é"), ("Ã¨", "è"), ("Ã ", "à"), ("Ã®", "î"),
   ("Ã§", "ç"), ("Ã»", "û"), ("Ã¢", "â"), ("Ã«", "ë"), ("Ã¯", "ï"),
   ("Ã¼", "ü"), ("Ã¶", "ö")]

/-- Expected output schema (`EXPECTED_COLUMNS`), transcribed verbatim; note
that the entry "Ki moun ki mal gade w nan sant sante oubyen lopital la ?"
occurs twice in the Python source. -/
def EXPECTED_COLUMNS : List String :=
  ["Respondent ID", "Collector ID", "Start Date", "End Date", "IP Address",
   "Nan ki depatman lopital / sant sante a ye ?",
   "Nan ki lopital oubyen sant sante ou konn ale nan depatmant atibonit ?",
   "Nan ki lopital oubyen sant sante ou konn ale nan depatman sant?",
   "Nan ki lopital oubyen sant sante ou konn ale nan depatman grandans?",
   "Nan ki lopital oubyen sant sante ou konn ale nan depatman nip?",
   "Nan ki lopital oubyen sant sante ou konn ale nan depatman nò?",
   "Nan ki lopital oubyen sant sante ou konn ale nan depatman nòdès?",
   "Nan ki lopital oubyen sant sante ou konn ale nan depatman nòdwès?",
   "Nan ki lopital oubyen sant sante ou konn ale nan depatman wès?",
   "Nan ki lopital oubyen sant sante ou konn ale nan depatman sid?",
   "Nan ki lopital oubyen sant sante ou konn ale nan depatman sidès?",
   "Antre kòd ST?",
   "Dat dènye vizit ou nan sant sante a oubyen lopital la ?",
   "Kòman ou tap note sèvis ou resevwa nan sant sante a oubyen lopital la jeneralman ?",
   "De kisa ou satisfè nan sant sante a oubyen lopital la?",
   "Unnamed: 32", "Unnamed: 33", "Unnamed: 34", "Unnamed: 35",
   "Kòmantè ou .",
   "Kòman ou tap note pwòprete nan sant sante a oubyen lopital la?",
   "Kòman ou tap note akèy nan sant sante a oubyen lopital la?",
   "Kòman ou tap note sèvis pèsonèl yo bay nan sant sante a oubyen lopital la jeneralman ?",
   "Kòman ou tap note tan ou fè ap tann nan sant sante a oubyen lopital la jeneralman ?",
   "Eske moun yo mal gade ou nan sant sante a oubyen lopital la jeneralman ?",
   "Ki moun ki mal gade w nan sant sante oubyen lopital la ?",
   "Kòmantè ou sou sant sante a oubyen lopital la.",
   "Ki pèsonèl ou pa satisfè de sèvis li ?",
   "Unnamed: 53", "Unnamed: 54", "Unnamed: 55", "Unnamed: 56",
   "Kòmantè e sigjesyon ou sou sèvis ou jwenn?",
   "Kòman ou tap note sèvis Doktè yo bay nan sant sante a oubyen lopital la jeneralman ?",
   "Kòman ou tap note sèvis Enfimyè yo bay nan sant sante a oubyen lopital la jeneralman ?",
   "Kòman ou tap note sèvis Famasyen yo bay nan sant sante a oubyen lopital la jeneralman ?",
   "Kòman ou tap note sèvis Sikològ / travayè sosyalyo bay nan sant sante a oubyen lopital la jeneralman ?",
   "Kòman ou tap note sèvis Laboratwa yo bay nan sant sante a oubyen lopital la jeneralman ?",
   "Pou ki sèvis ou bay enfòmasyon sa yo ",
   "Unnamed: 22", "Unnamed: 23", "Unnamed: 24", "Unnamed: 25", "Unnamed: 26",
   "Ki moun ki mal gade w nan sant sante oubyen lopital la ?",
   "Unnamed: 43", "Unnamed: 44", "Unnamed: 45", "Unnamed: 46", "Unnamed: 47",
   "Unnamed: 48", "Unnamed: 49", "Unnamed: 50",
   "Hospital_Combined",
   "Satisfaction_Combined",
   "Dissatisfaction_Combined",
   "Mistreatment_Combined"]

/-! ## Validator (src/etl/validator.py) -/

/-- Expected columns absent from the dataset
(`[col for col in EXPECTED_COLUMNS if col not in current_columns]`). -/
def missingColumns (df : DataFrame) : List String :=
  EXPECTED_COLUMNS.filter (fun c => c ∉ df.names)

/-- Dataset columns absent from the expected schema
(`[col for col in current_columns if col not in EXPECTED_COLUMNS]`). -/
def extraColumns (df : DataFrame) : List String :=
  df.names.filter (fun c => c ∉ EXPECTED_COLUMNS)

/-- Model of `validator.validate_columns`: one error entry per nonempty
direction, validity exactly when no error was collected.  (The Python
f-string renders the list with its repr; only the fixed message heads and
the listed names matter here.) -/
def validate_columns (df : DataFrame) : Bool × List String :=
  let missing := missingColumns df
  let extra := extraColumns df
  let errors : List String :=
    (if missing ≠ [] then ["Missing columns: " ++ toString missing] else []) ++
    (if extra ≠ [] then ["Unexpected columns found: " ++ toString extra] else [])
  if errors ≠ [] then (false, errors) else (true, [])

/-- Model of `validator.reorder_columns`, including the Python
`expected_columns or EXPECTED_COLUMNS` default, which also falls back to
`EXPECTED_COLUMNS` when the caller passes an empty list (empty lists are
falsy in Python). -/
def reorder_columns (df : DataFrame) (expectedArg : Option (List String))
    (keep_extra : Bool) : DataFrame :=
  let expected : List String :=
    match expectedArg with
    | none => EXPECTED_COLUMNS
    | some l => if l = [] then EXPECTED_COLUMNS else l
  let aligned := expected.filter (fun c => c ∈ df.names)
  let extras := df.names.filter (fun c => c ∉ expected)
  selectCols df (aligned ++ (if keep_extra then extras else []))

/-! ## Uploader (src/etl/uploader.py) -/

/-- Abstract description of the HTTP requests issued for an upload. -/
inductive UploadPlan where
  | simple (body : List Nat)
  | chunked (conflictBehavior : String) (chunks : List (List Nat × String))
deriving DecidableEq, Repr

/-- Fixed chunk size of `chunked_upload` (5 MiB). -/
def CHUNK_SIZE : Nat := 5 * 1024 * 1024

/-- Python `range(0, stop, step)` for a positive step. -/
def pyRangeStep (stop step : Nat) : List Nat :=
  (List.range ((stop + step - 1) / step)).map (fun i => i * step)

/-- Content-Range header `bytes start-end/total` of a chunk PUT. -/
def contentRangeHeader (start stop total : Nat) : String :=
  "bytes " ++ toString start ++ "-" ++ toString stop ++ "/" ++ toString total

/-- Model of `uploader.chunked_upload`: the conflict policy of the upload
session and the ordered list of chunk PUTs, each with its body slice and
Content-Range header. -/
def chunked_upload (fileContent : List Nat) (overwrite : Bool) : UploadPlan :=
  let conflict := if overwrite then "replace" else "fail"
  let fileSize := fileContent.length
  let chunks := (pyRangeStep fileSize CHUNK_SIZE).map (fun i =>
    ((fileContent.drop i).take CHUNK_SIZE,
     contentRangeHeader i (min (i + CHUNK_SIZE) fileSize - 1) fileSize))
  .chunked conflict chunks

/-- Model of `uploader.upload_to_sharepoint`: strategy selection by size
against the 4 MiB threshold; the simple path sends the raw bytes as body. -/
def upload_to_sharepoint (fileContent : List Nat) (overwrite : Bool) : UploadPlan :=
  if fileContent.length < 4 * 1024 * 1024 then .simple fileContent
  else chunked_upload fileContent overwrite

/-! ## Transformer, substring-replacement passes (src/etl/transformer.py) -/

/-- One column under the per-mapping loop shared by
`apply_rating_mappings`, `apply_text_standardization` and the extractor
fix pass: for each table entry in order, the whole column is stringified
(`astype(str)`) and the source substring replaced. -/
def applyMapsToCol (maps : List (String × String)) (vs : List Val) : List Val :=
  maps.foldl
    (fun vs m => vs.map (fun v => Val.vstr (pyReplace (valToString v) m.1 m.2))) vs

/-- One column under the dtype guard of the per-dataset loop: only
object-typed (text) columns are touched. -/
def mapColIfObject (maps : List (String × String)) (c : String × List Val) :
    String × List Val :=
  if isObjectCol c.2 then (c.1, applyMapsToCol maps c.2) else c

/-- The per-dataset loop shared by the three replacement passes. -/
def applyMapsToDf (maps : List (String × String)) (df : DataFrame) : DataFrame :=
  ⟨df.cols.map (mapColIfObject maps)⟩

/-- Model of `transformer.apply_rating_mappings`. -/
def apply_rating_mappings (df : DataFrame) : DataFrame :=
  applyMapsToDf RATING_MAPPINGS df

/-- Model of `transformer.apply_text_standardization`. -/
def apply_text_standardization (df : DataFrame) : DataFrame :=
  applyMapsToDf TEXT_STANDARDIZATION df

/-- Model of the encoding-fix pass at the end of `extractor.load_csv`. -/
def applyEncodingFixes (df : DataFrame) : DataFrame :=
  applyMapsToDf ENCODING_FIXES df

/-! ## Transformer, column combination (src/etl/transformer.py) -/

/-- One combined cell: `"; ".join(row.dropna().astype(str))`. -/
def combineRow (vals : List Val) : String :=
  String.intercalate "; " ((vals.filter (fun v => !v.isNull)).map valToString)

/-- Pandas `df[name] = values`: replace the values of every column with
that label, or append a new column at the end. -/
def setColumn (df : DataFrame) (n : String) (vs : List Val) : DataFrame :=
  if n ∈ df.names then ⟨df.cols.map (fun c => if c.1 = n then (c.1, vs) else c)⟩
  else ⟨df.cols ++ [(n, vs)]⟩

/-- One question-group combination step of
`apply_power_query_transformations`: select the matching columns and, when
any match, store the per-row combined strings under the new label. -/
def addCombinedColumn (df : DataFrame) (matchCol : String → Bool)
    (newName : String) : DataFrame :=
  let matched := df.cols.filter (fun c => matchCol c.1)
  if matched = [] then df
  else
    setColumn df newName
      ((List.range df.nrows).map
        (fun r => Val.vstr (combineRow (matched.map (fun c => c.2.getD r Val.vnull)))))

/-- Column predicate of the hospital group. -/
def hospitalMatch (n : String) : Bool :=
  strContains (pyLower n) "lopital" || strContains n "Nan ki lopital"

/-- Column predicate of the satisfaction group. -/
def satisfactionMatch (n : String) : Bool :=
  strContains (pyLower n) "satisfè" || strContains (pyLower n) "satisfe"

/-- Column predicate of the dissatisfaction group. -/
def dissatisfactionMatch (n : String) : Bool :=
  strContains (pyLower n) "pa satisfè" || strContains (pyLower n) "pa satisfe"

/-- Column predicate of the mistreatment group. -/
def mistreatmentMatch (n : String) : Bool :=
  strContains (pyLower n) "mal gade"

/-- The four combination steps of `apply_power_query_transformations`, in
source order. -/
def combinePhase (df : DataFrame) : DataFrame :=
  let d1 := addCombinedColumn df hospitalMatch "Hospital_Combined"
  let d2 := addCombinedColumn d1 satisfactionMatch "Satisfaction_Combined"
  let d3 := addCombinedColumn d2 dissatisfactionMatch "Dissatisfaction_Combined"
  addCombinedColumn d3 mistreatmentMatch "Mistreatment_Combined"

/-! ## Transformer, positional VBA phase (src/etl/transformer.py) -/

/-- VBA step 1: delete the column at fixed position 28 (spreadsheet column
AC), guarded by the column count; pandas `drop` removes every column with
that label. -/
def vbaDeleteAC (df : DataFrame) : DataFrame :=
  if h : 28 < df.cols.length then
    let colAc := df.cols.get ⟨28, h⟩
    ⟨df.cols.filter (fun c => c.1 ≠ colAc.1)⟩
  else df

/-- VBA steps 2 and 3: relocate the block of columns at positions
`[startIdx, stopIdx)` to the end, guarded as in the source
(`len > guardLen` and `len >= stopIdx`). -/
def vbaMoveBlock (guardLen startIdx stopIdx : Nat) (df : DataFrame) : DataFrame :=
  if guardLen < df.cols.length then
    if stopIdx ≤ df.cols.length then
      let blockNames := ((df.cols.drop startIdx).take (stopIdx - startIdx)).map (fun c => c.1)
      let otherNames := df.names.filter (fun c => c ∉ blockNames)
      selectCols df (otherNames ++ blockNames)
    else df
  else df

/-- Python `str.strip()`: leading and trailing whitespace removed. -/
def pyStrip (s : String) : String :=
  ⟨((s.data.dropWhile Char.isWhitespace).reverse.dropWhile Char.isWhitespace).reverse⟩

/-- Emptiness test of VBA step 4: every cell null, or every cell
stringifying and stripping to the empty string (`all()` of an empty column
is vacuously true, as in pandas). -/
def isEmptyCol (vs : List Val) : Bool :=
  vs.all (fun v => v.isNull) || vs.all (fun v => pyStrip (valToString v) = "")

/-- VBA step 4: remove the all-empty columns. -/
def vbaRemoveEmpty (df : DataFrame) : DataFrame :=
  let emptyNames := (df.cols.filter (fun c => isEmptyCol c.2)).map (fun c => c.1)
  if emptyNames ≠ [] then ⟨df.cols.filter (fun c => c.1 ∉ emptyNames)⟩ else df

/-- VBA step 5: insert an empty column AV right after AU.  Pandas
`DataFrame.insert` raises a ValueError when the inserted label already
exists, which this model makes explicit. -/
def vbaInsertAV (df : DataFrame) : Except String DataFrame :=
  if "AU" ∈ df.names then
    if "AV" ∈ df.names then .error "cannot insert AV, already exists"
    else
      .ok ⟨insertAt df.cols (df.names.indexOf "AU" + 1)
             ("AV", List.replicate df.nrows Val.vnull)⟩
  else .ok df

/-- VBA step 6: copy column V into AV and delete V, when both are present. -/
def vbaMoveVtoAV (df : DataFrame) : DataFrame :=
  if "V" ∈ df.names ∧ "AV" ∈ df.names then
    let vVals := getColVals df "V"
    ⟨(df.cols.map (fun c => if c.1 = "AV" then (c.1, vVals) else c)).filter
       (fun c => c.1 ≠ "V")⟩
  else df

/-- Rename table of VBA step 7, keyed on presence of the fixed labels. -/
def vbaRenameMap (df : DataFrame) : List (String × String) :=
  (if "AH" ∈ df.names then [("AH", "AH_Renamed")] else []) ++
  (if "AO" ∈ df.names then [("AO", "AO_Renamed")] else []) ++
  (if "AT" ∈ df.names then [("AT", "AT_Renamed")] else [])

/-- Application of a rename table to one label. -/
def applyRename (m : List (String × String)) (n : String) : String :=
  match m.find? (fun p => p.1 = n) with
  | some p => p.2
  | none => n

/-- VBA step 7: rename AH, AO, AT when present. -/
def vbaRename (df : DataFrame) : DataFrame :=
  let m := vbaRenameMap df
  if m ≠ [] then ⟨df.cols.map (fun c => (applyRename m c.1, c.2))⟩ else df

/-- Model of `transformer.apply_vba_transformations`: the seven positional
steps in source order; only the insert step can fail. -/
def apply_vba_transformations (df : DataFrame) : Except String DataFrame := do
  let d1 := vbaDeleteAC df
  let d2 := vbaMoveBlock 26 21 27 d1
  let d3 := vbaMoveBlock 43 35 44 d2
  let d4 := vbaRemoveEmpty d3
  let d5 ← vbaInsertAV d4
  let d6 := vbaMoveVtoAV d5
  pure (vbaRename d6)

/-! ## Extractor (src/etl/extractor.py) -/

/-- Outcome of one `pd.read_csv` attempt: success, a UnicodeDecodeError, or
any other exception. -/
inductive ReadErr where
  | unicodeDecodeError
  | otherError
deriving DecidableEq, Repr

/-- Failure of the extractor as a whole. -/
inductive LoadErr where
  | fileNotFound
  | allEncodingsFailed
  | uncaught (e : ReadErr)
deriving DecidableEq, Repr

/-- Model of `extractor.load_csv`.  The three decode attempts are supplied
as oracles.  The existence check precedes every decode attempt.  The first
`except` clause of the source catches only `UnicodeDecodeError`, so any
other failure of the UTF-8 attempt propagates without trying the
fallbacks; the later clauses catch every exception. -/
def load_csv (pathExists : Bool)
    (utf8Try latin1Try cp1252Try : Except ReadErr DataFrame) :
    Except LoadErr DataFrame :=
  if pathExists = false then .error .fileNotFound
  else
    match utf8Try with
    | .ok df => .ok (applyEncodingFixes df)
    | .error .unicodeDecodeError =>
      match latin1Try with
      | .ok df => .ok (applyEncodingFixes df)
      | .error _ =>
        match cp1252Try with
        | .ok df => .ok (applyEncodingFixes df)
        | .error _ => .error .allEncodingsFailed
    | .error .otherError => .error (.uncaught .otherError)

/-! ## Pipeline control flow (src/etl.py) -/

/-- Outcome of a fallible pipeline stage. -/
inductive StageResult where
  | ok
  | raised
deriving DecidableEq, Repr

/-- Control-flow model of `etl.run_etl`: configuration warnings never halt
the run; extraction, transformation, staging and the spreadsheet write
abort on an exception through the outer handlers; a failed schema
validation returns early; `verify_excel_data` catches internally and never
raises; the upload block has its own handler, so upload or
upload-verification failures fall through to the success path. -/
def run_etl (settingsValid : Bool) (extract transformStage staging : StageResult)
    (schemaValid : Bool) (writeExcel uploadRes verifyUploadRes : StageResult) : Bool :=
  match extract with
  | .raised => false
  | .ok =>
    match transformStage with
    | .raised => false
    | .ok =>
      match staging with
      | .raised => false
      | .ok =>
        if schemaValid = false then false
        else
          match writeExcel with
          | .raised => false
          | .ok =>
            match uploadRes, verifyUploadRes with
            | _, _ => true

/-- Model of `etl.main`: `sys.exit(0 if success else 1)`. -/
def etl_exit_code (settingsValid : Bool)
    (extract transformStage staging : StageResult) (schemaValid : Bool)
    (writeExcel uploadRes verifyUploadRes : StageResult) : Nat :=
  if run_etl settingsValid extract transformStage staging schemaValid
       writeExcel uploadRes verifyUploadRes then 0 else 1

/-! ## Theorems -/

/-- C9: the pipeline exit status is 0 exactly when extraction,
transformation, staging, schema validation and the spreadsheet write all
succeed; it is 1 in every other case; and the SharePoint upload and
upload-verification outcomes never change the exit status. -/
theorem C9_exit_status (settingsValid : Bool)
    (extract transformStage staging : StageResult) (schemaValid : Bool)
    (writeExcel uploadRes verifyUploadRes : StageResult) :
    (etl_exit_code settingsValid extract transformStage staging schemaValid
        writeExcel uploadRes verifyUploadRes = 0 ↔
      (extract = .ok ∧ transformStage = .ok ∧ staging = .ok ∧
        schemaValid = true ∧ writeExcel = .ok))
  ∧ (∀ u2 v2 : StageResult,
      etl_exit_code settingsValid extract transformStage staging schemaValid
        writeExcel uploadRes verifyUploadRes =
      etl_exit_code settingsValid extract transformStage staging schemaValid
        writeExcel u2 v2)
  ∧ (etl_exit_code settingsValid extract transformStage staging schemaValid
        writeExcel uploadRes verifyUploadRes = 0 ∨
     etl_exit_code settingsValid extract transformStage staging schemaValid
        writeExcel uploadRes verifyUploadRes = 1) := by
  cases extract <;> cases transformStage <;> cases staging <;>
    cases schemaValid <;> cases writeExcel <;>
      simp [etl_exit_code, run_etl]

/-- C8 counterexample: when the UTF-8 attempt raises an exception other
than a UnicodeDecodeError, the extractor fails even though both fallback
encodings could read the file, because the first except clause of the
source catches only UnicodeDecodeError; this contradicts the claim that
the extractor succeeds whenever at least one of the three encodings can
read the file. -/
theorem C8_counterexample :
    load_csv true (.error .otherError) (.ok ⟨[]⟩) (.ok ⟨[]⟩)
      = .error (.uncaught .otherError) := rfl

/-- C8 amended: the extractor fails with a not-found error before any
decode attempt when the path does not exist; it attempts UTF-8 first and
falls back to latin1 and then cp1252, in that order, only when the UTF-8
attempt raises a Unicode-decode error; it fails with the generic decode
error exactly when all three attempts raise along that chain; and a
non-Unicode failure of the UTF-8 attempt propagates without trying the
fallbacks. -/
theorem C8_load_csv (pathExists : Bool) (u l c : Except ReadErr DataFrame) :
    (pathExists = false → load_csv pathExists u l c = .error .fileNotFound)
  ∧ (∀ df, pathExists = true → u = .ok df →
      load_csv pathExists u l c = .ok (applyEncodingFixes df))
  ∧ (∀ df, pathExists = true → u = .error .unicodeDecodeError → l = .ok df →
      load_csv pathExists u l c = .ok (applyEncodingFixes df))
  ∧ (∀ df e, pathExists = true → u = .error .unicodeDecodeError →
      l = .error e → c = .ok df →
      load_csv pathExists u l c = .ok (applyEncodingFixes df))
  ∧ (load_csv pathExists u l c = .error .allEncodingsFailed ↔
      (pathExists = true ∧ u = .error .unicodeDecodeError ∧
        (∃ e, l = .error e) ∧ (∃ e, c = .error e)))
  ∧ (pathExists = true → u = .error .otherError →
      load_csv pathExists u l c = .error (.uncaught .otherError)) := by
  cases pathExists with
  | false => simp [load_csv]
  | true =>
    rcases u with eu | udf
    · cases eu
      · rcases l with el | ldf
        · rcases c with ec | cdf
          · simp [load_csv]
          · simp [load_csv]
        · simp [load_csv]
      · simp [load_csv]
    · simp [load_csv]

/-- C8 witness: the amended theorem applied at a concrete run in which all
three decode attempts raise, producing the generic decode error. -/
theorem C8_load_csv_witness :
    load_csv true (.error .unicodeDecodeError) (.error .otherError)
        (.error .otherError) = .error .allEncodingsFailed :=
  (C8_load_csv true (.error .unicodeDecodeError) (.error .otherError)
      (.error .otherError)).2.2.2.2.1.mpr ⟨rfl, rfl, ⟨_, rfl⟩, ⟨_, rfl⟩⟩

/-- C3: the uploader selects its strategy by the strict 4 MiB threshold;
the simple path sends the raw bytes as body; the chunked path carries the
replace-or-fail conflict policy derived from the overwrite flag and PUTs
exactly ceil(size / 5 MiB) chunks, each a nonempty slice of at most 5 MiB
with a Content-Range header `bytes start-end/total`, over strictly
increasing contiguous ranges that start at byte 0 and end at the final
byte of the file. -/
theorem C3_upload_strategy (content : List Nat) (overwrite : Bool) :
    (content.length < 4 * 1024 * 1024 →
      upload_to_sharepoint content overwrite = .simple content)
  ∧ (4 * 1024 * 1024 ≤ content.length →
      ∃ chunks,
        upload_to_sharepoint content overwrite
          = .chunked (if overwrite then "replace" else "fail") chunks
      ∧ chunks.length = (content.length + CHUNK_SIZE - 1) / CHUNK_SIZE
      ∧ (∀ k, (hk : k < chunks.length) →
            chunks[k].1 = (content.drop (k * CHUNK_SIZE)).take CHUNK_SIZE
          ∧ chunks[k].1.length
              = min ((k + 1) * CHUNK_SIZE) content.length - k * CHUNK_SIZE
          ∧ chunks[k].1.length ≤ CHUNK_SIZE
          ∧ 0 < chunks[k].1.length
          ∧ chunks[k].2 = contentRangeHeader (k * CHUNK_SIZE)
              (min ((k + 1) * CHUNK_SIZE) content.length - 1) content.length)
      ∧ (∀ k, k + 1 < chunks.length →
          min ((k + 1) * CHUNK_SIZE) content.length - 1 + 1
            = (k + 1) * CHUNK_SIZE)
      ∧ 0 < chunks.length
      ∧ min (chunks.length * CHUNK_SIZE) content.length = content.length) := by
  constructor
  · intro h
    simp [upload_to_sharepoint, h]
  · intro h
    have hCS : CHUNK_SIZE = 5242880 := rfl
    have hmul : ((content.length + CHUNK_SIZE - 1) / CHUNK_SIZE) * CHUNK_SIZE
        ≤ content.length + CHUNK_SIZE - 1 := Nat.div_mul_le_self _ _
    have hup : content.length
        ≤ ((content.length + CHUNK_SIZE - 1) / CHUNK_SIZE) * CHUNK_SIZE := by
      have hdm := Nat.div_add_mod (content.length + CHUNK_SIZE - 1) CHUNK_SIZE
      have hmod : (content.length + CHUNK_SIZE - 1) % CHUNK_SIZE < CHUNK_SIZE :=
        Nat.mod_lt _ (by rw [hCS]; omega)
      rw [hCS] at hdm hmod ⊢
      omega
    have hstart : ∀ k, k < (content.length + CHUNK_SIZE - 1) / CHUNK_SIZE →
        k * CHUNK_SIZE < content.length := by
      intro k hk
      have h1 : (k + 1) * CHUNK_SIZE
          ≤ ((content.length + CHUNK_SIZE - 1) / CHUNK_SIZE) * CHUNK_SIZE :=
        Nat.mul_le_mul_right _ hk
      rw [hCS] at h1 hmul ⊢
      omega
    refine ⟨(pyRangeStep content.length CHUNK_SIZE).map (fun i =>
        ((content.drop i).take CHUNK_SIZE,
         contentRangeHeader i (min (i + CHUNK_SIZE) content.length - 1)
           content.length)), ?_, ?_, ?_, ?_, ?_, ?_⟩
    · simp only [upload_to_sharepoint, chunked_upload]
      rw [if_neg (by omega)]
    · simp [pyRangeStep]
    · intro k hk
      have hk' : k < (content.length + CHUNK_SIZE - 1) / CHUNK_SIZE := by
        simpa [pyRangeStep] using hk
      have hklt : k * CHUNK_SIZE < content.length := hstart k hk'
      have hget : ((pyRangeStep content.length CHUNK_SIZE).map (fun i =>
          ((content.drop i).take CHUNK_SIZE,
           contentRangeHeader i (min (i + CHUNK_SIZE) content.length - 1)
             content.length)))[k] =
          ((content.drop (k * CHUNK_SIZE)).take CHUNK_SIZE,
           contentRangeHeader (k * CHUNK_SIZE)
             (min (k * CHUNK_SIZE + CHUNK_SIZE) content.length - 1)
             content.length) := by
        simp [pyRangeStep]
      rw [hget]
      have hsucc : k * CHUNK_SIZE + CHUNK_SIZE = (k + 1) * CHUNK_SIZE := by ring
      refine ⟨rfl, ?_, ?_, ?_, ?_⟩
      · simp only [List.length_take, List.length_drop]
        rw [hCS] at hklt ⊢
        omega
      · simp only [List.length_take, List.length_drop]
        omega
      · simp only [List.length_take, List.length_drop]
        rw [hCS] at hklt ⊢
        omega
      · rw [hsucc]
    · intro k hk2
      have hk2' : k + 1 < (content.length + CHUNK_SIZE - 1) / CHUNK_SIZE := by
        simpa [pyRangeStep] using hk2
      have := hstart (k + 1) hk2'
      rw [hCS] at this ⊢
      omega
    · have h1 : 1 ≤ (content.length + CHUNK_SIZE - 1) / CHUNK_SIZE := by
        refine (Nat.le_div_iff_mul_le ?_).mpr ?_ <;> rw [hCS] <;> omega
      simp [pyRangeStep]
      omega
    · have hlen : ((pyRangeStep content.length CHUNK_SIZE).map (fun i =>
          ((content.drop i).take CHUNK_SIZE,
           contentRangeHeader i (min (i + CHUNK_SIZE) content.length - 1)
             content.length))).length
          = (content.length + CHUNK_SIZE - 1) / CHUNK_SIZE := by
        simp [pyRangeStep]
      rw [hlen]
      rw [hCS] at hup ⊢
      omega

/-- C3 witness: the strategy theorem applied to a file of exactly 4 MiB,
which takes the chunked path with the replace policy and a single chunk. -/
theorem C3_upload_strategy_witness :
    ∃ chunks,
      upload_to_sharepoint (List.replicate (4 * 1024 * 1024) 0) true
        = .chunked "replace" chunks ∧ chunks.length = 1 := by
  have h := (C3_upload_strategy (List.replicate (4 * 1024 * 1024) 0) true).2
    (by rw [List.length_replicate])
  obtain ⟨chunks, h1, h2, -, -, -, -⟩ := h
  have hcond : (if true then "replace" else "fail") = "replace" := rfl
  rw [hcond] at h1
  refine ⟨chunks, h1, ?_⟩
  rw [h2, List.length_replicate]
  rfl

/-- Every column produced by a pandas label selection is one of the
original columns, values included. -/
theorem selectCols_mem (df : DataFrame) (ns : List String) :
    ∀ c ∈ (selectCols df ns).cols, c ∈ df.cols := by
  intro c hc
  simp only [selectCols, List.mem_flatMap] at hc
  obtain ⟨n, -, hc⟩ := hc
  exact (List.mem_filter.mp hc).1

/-- On a dataset with unique column labels, filtering by one present label
yields exactly the column carrying it. -/
theorem filterByName (cols : List (String × List Val)) (n : String)
    (hnd : (cols.map (fun c => c.1)).Nodup) (hm : n ∈ cols.map (fun c => c.1)) :
    ∃ v, cols.filter (fun c => c.1 = n) = [(n, v)] ∧ (n, v) ∈ cols := by
  induction cols with
  | nil => simp at hm
  | cons c rest ih =>
    obtain ⟨c1, c2⟩ := c
    simp only [List.map_cons, List.nodup_cons] at hnd
    by_cases hcn : c1 = n
    · subst hcn
      refine ⟨c2, ?_, by simp⟩
      have hfil : rest.filter (fun x => x.1 = c1) = [] := by
        rw [List.filter_eq_nil_iff]
        intro x hx
        simp only [decide_eq_true_eq]
        intro hxn
        exact hnd.1 (hxn ▸ List.mem_map_of_mem (fun c => c.1) hx)
      simp [List.filter_cons, hfil]
    · have hm' : n ∈ rest.map (fun c => c.1) := by
        rcases List.mem_cons.mp hm with h | h
        · exact absurd h.symm hcn
        · exact h
      obtain ⟨v, hfil, hmem⟩ := ih hnd.2 hm'
      exact ⟨v, by simp [List.filter_cons, hcn, hfil],
        List.mem_cons_of_mem _ hmem⟩

/-- On a dataset with unique column labels, selecting a list of present
labels returns columns labelled exactly by that list, in that order. -/
theorem selectCols_names (df : DataFrame) (hnd : df.names.Nodup) :
    ∀ ns : List String, (∀ n ∈ ns, n ∈ df.names) → (selectCols df ns).names = ns := by
  intro ns
  induction ns with
  | nil => intro _; rfl
  | cons n rest ih =>
    intro hns
    have hm : n ∈ df.names := hns n (by simp)
    obtain ⟨v, hfil, -⟩ := filterByName df.cols n hnd hm
    have hrest := ih (fun x hx => hns x (List.mem_cons_of_mem _ hx))
    simp only [selectCols, DataFrame.names, List.flatMap_cons, List.map_append] at hrest ⊢
    rw [hfil, hrest]
    rfl

/-- Counting a finite intersection from either side: on duplicate-free
lists, the elements of the first list lying in the second are as many as
the elements of the second lying in the first. -/
theorem length_filter_mem_comm (l₁ l₂ : List String)
    (h₁ : l₁.Nodup) (h₂ : l₂.Nodup) :
    (l₁.filter (fun c => c ∈ l₂)).length = (l₂.filter (fun c => c ∈ l₁)).length := by
  have e₁ : (l₁.filter (fun c => c ∈ l₂)).length
      = (l₁.toFinset ∩ l₂.toFinset).card := by
    rw [← List.toFinset_card_of_nodup (h₁.filter _), List.toFinset_filter]
    congr 1
    ext x
    simp
  have e₂ : (l₂.filter (fun c => c ∈ l₁)).length
      = (l₂.toFinset ∩ l₁.toFinset).card := by
    rw [← List.toFinset_card_of_nodup (h₂.filter _), List.toFinset_filter]
    congr 1
    ext x
    simp
  rw [e₁, e₂, Finset.inter_comm]

/-- C1 counterexample: two concrete inputs refuting the claim as stated.
(i) With an empty expected-schema list, the Python `or` default silently
substitutes `EXPECTED_COLUMNS`, so a dataset column belonging to the
default schema is kept even though the supplied schema lists no column at
all: the result has 1 column where the claim demands 0.  (ii) With a
duplicated entry in the expected-schema list, the matching dataset column
is emitted twice under `keep_extra = True`: a dataset with N = 1 expected
and M = 0 extra columns yields 2 columns, not N + M = 1. -/
theorem C1_counterexample :
    ((reorder_columns ⟨[("Respondent ID", [Val.vstr "1"])]⟩ (some []) false).cols.length
        = 1)
  ∧ ((reorder_columns ⟨[("A", [Val.vstr "x"])]⟩ (some ["A", "A"]) true).cols.length
        = 2) := by
  constructor
  · decide
  · decide

/-- C1 amended: for every nonempty, duplicate-free expected-schema list
and dataset with unique column labels, `reorder_columns` with
`keep_extra = False` returns exactly the expected-schema columns present
in the dataset in schema order, dropping every other column; with
`keep_extra = True` it returns those schema-ordered columns followed by
the columns not in the expected list in their original relative order, so
a dataset with N expected and M extra columns yields N + M columns; in
both cases every retained column keeps its original row values. -/
theorem C1_reorder_columns (df : DataFrame) (expected : List String)
    (hne : expected ≠ []) (hnd : expected.Nodup) (hdf : df.names.Nodup) :
    ((reorder_columns df (some expected) false).names
        = expected.filter (fun c => c ∈ df.names))
  ∧ ((reorder_columns df (some expected) true).names
        = expected.filter (fun c => c ∈ df.names)
          ++ df.names.filter (fun c => c ∉ expected))
  ∧ (∀ keep : Bool, ∀ c ∈ (reorder_columns df (some expected) keep).cols, c ∈ df.cols)
  ∧ ((reorder_columns df (some expected) true).cols.length
        = (df.names.filter (fun c => c ∈ expected)).length
          + (df.names.filter (fun c => c ∉ expected)).length) := by
  have hunf : ∀ ke : Bool, reorder_columns df (some expected) ke
      = selectCols df ((expected.filter (fun c => c ∈ df.names))
          ++ (if ke then df.names.filter (fun c => c ∉ expected) else [])) := by
    intro ke
    simp [reorder_columns, hne]
  have haligned : ∀ n ∈ expected.filter (fun c => c ∈ df.names), n ∈ df.names := by
    intro n hn
    have := List.mem_filter.mp hn
    simpa using this.2
  have hextras : ∀ n ∈ df.names.filter (fun c => c ∉ expected), n ∈ df.names :=
    fun n hn => (List.mem_filter.mp hn).1
  have hnames : ∀ ke : Bool, (reorder_columns df (some expected) ke).names
      = (expected.filter (fun c => c ∈ df.names))
        ++ (if ke then df.names.filter (fun c => c ∉ expected) else []) := by
    intro ke
    rw [hunf ke]
    refine selectCols_names df hdf _ ?_
    intro n hn
    rcases List.mem_append.mp hn with h | h
    · exact haligned n h
    · cases ke with
      | true => exact hextras n (by simpa using h)
      | false => simp at h
  refine ⟨?_, ?_, ?_, ?_⟩
  · simpa using hnames false
  · simpa using hnames true
  · intro keep c hc
    rw [hunf keep] at hc
    exact selectCols_mem df _ c hc
  · have hlen : (reorder_columns df (some expected) true).cols.length
        = (reorder_columns df (some expected) true).names.length := by
      simp [DataFrame.names]
    rw [hlen, hnames true]
    simp only [if_true, List.length_append]
    congr 1
    exact length_filter_mem_comm expected df.names hnd hdf

/-- C1 witness: the amended theorem applied to a dataset holding exactly
the expected columns in scrambled order, under `keep_extra = False`: the
result has the columns in exactly the expected order. -/
theorem C1_reorder_columns_witness :
    (reorder_columns
        ⟨[("C", [Val.vstr "3"]), ("A", [Val.vstr "1"]), ("B", [Val.vstr "2"])]⟩
        (some ["A", "B", "C"]) false).names = ["A", "B", "C"] := by
  have h := C1_reorder_columns
      ⟨[("C", [Val.vstr "3"]), ("A", [Val.vstr "1"]), ("B", [Val.vstr "2"])]⟩
      ["A", "B", "C"] (by decide) (by decide) (by decide)
  rw [h.1]
  decide

/-- The two validation error messages have different head characters, so
an entry of the missing direction never equals one of the extra direction. -/
theorem validationMsg_ne (a b : String) :
    "Missing columns: " ++ a ≠ "Unexpected columns found: " ++ b := by
  intro h
  have hd : "Missing columns: ".data ++ a.data
      = "Unexpected columns found: ".data ++ b.data := by
    have := congrArg String.data h
    rwa [String.data_append, String.data_append] at this
  have h1 : "Missing columns: ".data = 'M' :: "issing columns: ".data := by decide
  have h2 : "Unexpected columns found: ".data
      = 'U' :: "nexpected columns found: ".data := by decide
  rw [h1, h2, List.cons_append, List.cons_append] at hd
  simp at hd

/-- C2: `validate_columns` is valid exactly when the dataset column set
equals the expected column set; a valid result carries no errors; there is
one error entry per differing direction, computed independently so no
column is reported in both directions; and a dataset differing in both
directions yields False with exactly two distinct error entries.  Order
mismatch alone cannot invalidate, since validity depends only on the two
membership inclusions. -/
theorem C2_validate_columns (df : DataFrame) :
    ((validate_columns df).1 = true ↔ ∀ c, c ∈ df.names ↔ c ∈ EXPECTED_COLUMNS)
  ∧ ((validate_columns df).1 = true → (validate_columns df).2 = [])
  ∧ ((validate_columns df).2.length
       = (if missingColumns df = [] then 0 else 1)
         + (if extraColumns df = [] then 0 else 1))
  ∧ (∀ c, c ∈ missingColumns df → c ∉ extraColumns df)
  ∧ (missingColumns df ≠ [] → extraColumns df ≠ [] →
       (validate_columns df).1 = false
     ∧ ∃ a b, (validate_columns df).2 = [a, b] ∧ a ≠ b) := by
  have hm : missingColumns df = [] ↔ ∀ c ∈ EXPECTED_COLUMNS, c ∈ df.names := by
    simp [missingColumns, List.filter_eq_nil_iff]
  have he : extraColumns df = [] ↔ ∀ c ∈ df.names, c ∈ EXPECTED_COLUMNS := by
    simp [extraColumns, List.filter_eq_nil_iff]
  have hboth : ∀ c, c ∈ missingColumns df → c ∉ extraColumns df := by
    intro c h1 h2
    have h1' := List.mem_filter.mp h1
    have h2' := List.mem_filter.mp h2
    simp only [decide_eq_true_eq, decide_not, Bool.not_eq_eq_eq_not,
      Bool.not_true, decide_eq_false_iff_not] at h1' h2'
    exact h1'.2 h2'.1
  by_cases hmc : missingColumns df = [] <;> by_cases hec : extraColumns df = []
  · have hv : validate_columns df = (true, []) := by
      simp [validate_columns, hmc, hec]
    refine ⟨?_, ?_, ?_, hboth, ?_⟩
    · rw [hv]
      simp only [true_iff]
      exact fun c => ⟨fun hc => he.mp hec c hc, fun hc => hm.mp hmc c hc⟩
    · intro _; rw [hv]
    · rw [hv]; simp [hmc, hec]
    · intro hcon; exact absurd hmc hcon
  · have hv : validate_columns df
        = (false, ["Unexpected columns found: " ++ toString (extraColumns df)]) := by
      simp [validate_columns, hmc, hec]
    refine ⟨?_, ?_, ?_, hboth, ?_⟩
    · rw [hv]
      exact ⟨fun hcon => absurd hcon (by simp),
        fun hall => absurd (he.mpr fun c hc => (hall c).mp hc) hec⟩
    · intro hcon; rw [hv] at hcon; simp at hcon
    · rw [hv]; simp [hmc, hec]
    · intro hcon; exact absurd hmc hcon
  · have hv : validate_columns df
        = (false, ["Missing columns: " ++ toString (missingColumns df)]) := by
      simp [validate_columns, hmc, hec]
    refine ⟨?_, ?_, ?_, hboth, ?_⟩
    · rw [hv]
      exact ⟨fun hcon => absurd hcon (by simp),
        fun hall => absurd (hm.mpr fun c hc => (hall c).mpr hc) hmc⟩
    · intro hcon; rw [hv] at hcon; simp at hcon
    · rw [hv]; simp [hmc, hec]
    · intro _ hcon; exact absurd hec hcon
  · have hv : validate_columns df
        = (false, ["Missing columns: " ++ toString (missingColumns df),
                   "Unexpected columns found: " ++ toString (extraColumns df)]) := by
      simp [validate_columns, hmc, hec]
    refine ⟨?_, ?_, ?_, hboth, ?_⟩
    · rw [hv]
      exact ⟨fun hcon => absurd hcon (by simp),
        fun hall => absurd (hm.mpr fun c hc => (hall c).mpr hc) hmc⟩
    · intro hcon; rw [hv] at hcon; simp at hcon
    · rw [hv]; simp [hmc, hec]
    · intro _ _
      rw [hv]
      exact ⟨rfl, _, _, rfl, validationMsg_ne _ _⟩

/-- C2 witness: the theorem applied to a dataset missing exactly one
expected column ("Respondent ID") and containing one unexpected column:
validation fails with exactly two distinct error entries. -/
theorem C2_validate_columns_witness :
    (validate_columns ⟨(EXPECTED_COLUMNS.drop 1).map (fun n => (n, ([] : List Val)))
        ++ [("ZZZ_extra", [])]⟩).1 = false
  ∧ ∃ a b, (validate_columns ⟨(EXPECTED_COLUMNS.drop 1).map (fun n => (n, ([] : List Val)))
        ++ [("ZZZ_extra", [])]⟩).2 = [a, b] ∧ a ≠ b :=
  (C2_validate_columns _).2.2.2.2 (by decide) (by decide)

/-- The three purely structural VBA steps only rearrange or drop existing
columns, so every column of their output is a column of their input. -/
theorem vbaStep_cols_sub (df : DataFrame) :
    (∀ c ∈ (vbaDeleteAC df).cols, c ∈ df.cols)
  ∧ (∀ g s t, ∀ c ∈ (vbaMoveBlock g s t df).cols, c ∈ df.cols)
  ∧ (∀ c ∈ (vbaRemoveEmpty df).cols, c ∈ df.cols) := by
  refine ⟨?_, ?_, ?_⟩
  · intro c hc
    unfold vbaDeleteAC at hc
    split at hc
    · exact List.mem_of_mem_filter hc
    · exact hc
  · intro g s t c hc
    unfold vbaMoveBlock at hc
    split at hc
    · split at hc
      · exact selectCols_mem df _ c hc
      · exact hc
    · exact hc
  · intro c hc
    simp only [vbaRemoveEmpty] at hc
    split at hc
    · exact List.mem_of_mem_filter hc
    · exact hc

/-- C4 counterexample: a dataset that already contains a column labelled
AV next to AU makes the insert step raise (pandas `DataFrame.insert`
refuses an existing label), so the positional phase signals an error
instead of degrading to a no-op. -/
theorem C4_counterexample :
    apply_vba_transformations ⟨[("AU", [Val.vstr "x"]), ("AV", [Val.vstr "y"])]⟩
      = .error "cannot insert AV, already exists" := rfl

/-- C4 amended: every positional edit whose referenced position or name is
absent from the current dataset is a no-op, and the phase never signals an
error on any dataset that does not already carry a column labelled AV; a
dataset containing both AU and AV at the insert step is the single failing
shape. -/
theorem C4_vba_no_ops (df : DataFrame) :
    ("AV" ∉ df.names → ∃ d, apply_vba_transformations df = .ok d)
  ∧ (df.cols.length ≤ 28 → vbaDeleteAC df = df)
  ∧ (df.cols.length ≤ 26 → vbaMoveBlock 26 21 27 df = df)
  ∧ (df.cols.length ≤ 43 → vbaMoveBlock 43 35 44 df = df)
  ∧ ("AU" ∉ df.names → vbaInsertAV df = .ok df)
  ∧ (("V" ∉ df.names ∨ "AV" ∉ df.names) → vbaMoveVtoAV df = df)
  ∧ (("AH" ∉ df.names ∧ "AO" ∉ df.names ∧ "AT" ∉ df.names) → vbaRename df = df) := by
  refine ⟨?_, ?_, ?_, ?_, ?_, ?_, ?_⟩
  · intro hAV
    have hsub : ∀ c ∈ (vbaRemoveEmpty (vbaMoveBlock 43 35 44
        (vbaMoveBlock 26 21 27 (vbaDeleteAC df)))).cols, c ∈ df.cols := by
      intro c hc
      have h3 := (vbaStep_cols_sub (vbaMoveBlock 43 35 44
        (vbaMoveBlock 26 21 27 (vbaDeleteAC df)))).2.2 c hc
      have h2 := (vbaStep_cols_sub (vbaMoveBlock 26 21 27 (vbaDeleteAC df))).2.1
        43 35 44 c h3
      have h1 := (vbaStep_cols_sub (vbaDeleteAC df)).2.1 26 21 27 c h2
      exact (vbaStep_cols_sub df).1 c h1
    have hAV4 : "AV" ∉ (vbaRemoveEmpty (vbaMoveBlock 43 35 44
        (vbaMoveBlock 26 21 27 (vbaDeleteAC df)))).names := by
      intro hc
      simp only [DataFrame.names] at hc
      obtain ⟨c, hcm, hce⟩ := List.mem_map.mp hc
      exact hAV (hce ▸ List.mem_map_of_mem (fun c => c.1) (hsub c hcm))
    unfold apply_vba_transformations
    by_cases hAU : "AU" ∈ (vbaRemoveEmpty (vbaMoveBlock 43 35 44
        (vbaMoveBlock 26 21 27 (vbaDeleteAC df)))).names
    · simp only [vbaInsertAV, if_pos hAU, if_neg hAV4, bind, Except.bind]
      exact ⟨_, rfl⟩
    · simp only [vbaInsertAV, if_neg hAU, bind, Except.bind]
      exact ⟨_, rfl⟩
  · intro h
    unfold vbaDeleteAC
    rw [dif_neg (by omega)]
  · intro h
    unfold vbaMoveBlock
    rw [if_neg (by omega)]
  · intro h
    unfold vbaMoveBlock
    rw [if_neg (by omega)]
  · intro h
    simp [vbaInsertAV, h]
  · intro h
    unfold vbaMoveVtoAV
    rw [if_neg (by tauto)]
  · intro h
    simp [vbaRename, vbaRenameMap, h.1, h.2.1, h.2.2]

/-- C4 witness: the amended theorem applied to a one-column dataset
without an AV column: the whole positional phase succeeds. -/
theorem C4_vba_no_ops_witness :
    ∃ d, apply_vba_transformations ⟨[("B", [Val.vstr "b"])]⟩ = .ok d :=
  (C4_vba_no_ops ⟨[("B", [Val.vstr "b"])]⟩).1 (by decide)

/-- C7: a question-group combination step on a dataset where the combined
label is fresh appends one new column whose cell, for every row, joins the
non-null values of that row across the matched columns, taken in column
order, with the literal separator "; "; a row with zero non-null matches
yields the empty string. -/
theorem C7_combine_columns (df : DataFrame) (matchCol : String → Bool)
    (newName : String)
    (hmatch : df.cols.filter (fun c => matchCol c.1) ≠ [])
    (hfresh : newName ∉ df.names) :
    ∃ vals,
      (addCombinedColumn df matchCol newName).cols = df.cols ++ [(newName, vals)]
    ∧ vals.length = df.nrows
    ∧ (∀ r, r < df.nrows →
        vals[r]? = some (Val.vstr (String.intercalate "; "
          ((((df.cols.filter (fun c => matchCol c.1)).map
              (fun c => c.2.getD r Val.vnull)).filter
                (fun v => !v.isNull)).map valToString))))
    ∧ (∀ r, r < df.nrows →
        (∀ c ∈ df.cols.filter (fun c => matchCol c.1),
          (c.2.getD r Val.vnull).isNull = true) →
        vals[r]? = some (Val.vstr "")) := by
  have hcell : ∀ r, r < df.nrows →
      ((List.range df.nrows).map (fun r => Val.vstr (combineRow
        ((df.cols.filter (fun c => matchCol c.1)).map
          (fun c => c.2.getD r Val.vnull)))))[r]?
      = some (Val.vstr (combineRow
          ((df.cols.filter (fun c => matchCol c.1)).map
            (fun c => c.2.getD r Val.vnull)))) := by
    intro r hr
    rw [List.getElem?_map, List.getElem?_range hr]
    rfl
  refine ⟨(List.range df.nrows).map (fun r => Val.vstr (combineRow
      ((df.cols.filter (fun c => matchCol c.1)).map
        (fun c => c.2.getD r Val.vnull)))), ?_, ?_, ?_, ?_⟩
  · unfold addCombinedColumn
    rw [if_neg hmatch]
    unfold setColumn
    rw [if_neg hfresh]
  · simp
  · intro r hr
    rw [hcell r hr]
    rfl
  · intro r hr hnulls
    rw [hcell r hr]
    have hnil : ((df.cols.filter (fun c => matchCol c.1)).map
        (fun c => c.2.getD r Val.vnull)).filter (fun v => !v.isNull) = [] := by
      rw [List.filter_eq_nil_iff]
      intro v hv
      obtain ⟨c, hc, rfl⟩ := List.mem_map.mp hv
      rw [hnulls c hc]
      decide
    simp only [combineRow]
    rw [hnil]
    rfl

/-- C7 witness: the combination theorem applied to four hospital columns
where one row has values in exactly two of them: the combined cell equals
"valueA; valueB". -/
theorem C7_combine_columns_witness :
    ∃ vals,
      (addCombinedColumn
        ⟨[("lopital A", [Val.vstr "valueA"]), ("lopital B", [Val.vnull]),
          ("lopital C", [Val.vstr "valueB"]), ("lopital D", [Val.vnull])]⟩
        hospitalMatch "Hospital_Combined").cols
        = [("lopital A", [Val.vstr "valueA"]), ("lopital B", [Val.vnull]),
           ("lopital C", [Val.vstr "valueB"]), ("lopital D", [Val.vnull]),
           ("Hospital_Combined", vals)]
    ∧ vals[0]? = some (Val.vstr "valueA; valueB") := by
  obtain ⟨vals, h1, h2, h3, h4⟩ := C7_combine_columns
    ⟨[("lopital A", [Val.vstr "valueA"]), ("lopital B", [Val.vnull]),
      ("lopital C", [Val.vstr "valueB"]), ("lopital D", [Val.vnull])]⟩
    hospitalMatch "Hospital_Combined" (by decide) (by decide)
  refine ⟨vals, by simpa using h1, ?_⟩
  have h0 := h3 0 (by decide)
  rw [h0]
  decide

/-- On a nonempty mapping table the per-column loop acts cell-wise: each
cell is stringified once and the mappings fold over it in order. -/
theorem applyMapsToCol_eq (m : String × String) (ms : List (String × String)) :
    ∀ vs : List Val, applyMapsToCol (m :: ms) vs
      = vs.map (fun v => Val.vstr (cellApply (m :: ms) (valToString v))) := by
  induction ms generalizing m with
  | nil =>
    intro vs
    simp [applyMapsToCol, cellApply]
  | cons m2 ms2 ih =>
    intro vs
    have h1 : applyMapsToCol (m :: m2 :: ms2) vs
        = applyMapsToCol (m2 :: ms2)
            (vs.map (fun v => Val.vstr (pyReplace (valToString v) m.1 m.2))) := rfl
    rw [h1, ih m2, List.map_map]
    congr 1

/-- Cell-wise form of the column loop for any nonempty table. -/
theorem applyMapsToCol_ne_nil (maps : List (String × String)) (hne : maps ≠ [])
    (vs : List Val) :
    applyMapsToCol maps vs
      = vs.map (fun v => Val.vstr (cellApply maps (valToString v))) := by
  cases maps with
  | nil => exact absurd rfl hne
  | cons m ms => exact applyMapsToCol_eq m ms vs

/-- C5: the rating map is applied by substring replacement: every
text-typed column is transformed cell-wise, each cell getting every
mapping applied, in the declaration order of the table, as a substring
replacement on the stringified cell content — not a whole-cell equality
lookup; and a concrete cell holding two concatenated tokens gets both
matching substrings replaced independently. -/
theorem C5_rating_substring_semantics (df : DataFrame) :
    ((apply_rating_mappings df).cols = df.cols.map (fun c =>
        if isObjectCol c.2 then
          (c.1, c.2.map (fun v => Val.vstr (cellApply RATING_MAPPINGS (valToString v))))
        else c))
  ∧ (apply_rating_mappings ⟨[("note", [Val.vstr "Trè byenPasab"])]⟩
       = ⟨[("note", [Val.vstr "5 Etwal3 Etwal"])]⟩) := by
  constructor
  · simp only [apply_rating_mappings, applyMapsToDf]
    apply List.map_congr_left
    intro c _
    unfold mapColIfObject
    by_cases hobj : isObjectCol c.2
    · rw [if_pos hobj, if_pos hobj, applyMapsToCol_ne_nil RATING_MAPPINGS (by decide)]
    · rw [if_neg hobj, if_neg hobj]
  · decide

/-- Null cells of an object column under any nonempty replacement table
that leaves the string "nan" unchanged: every cell becomes a string and
former nulls become the literal string "nan". -/
theorem applyMapsToDf_null_cells (maps : List (String × String)) (hne : maps ≠ [])
    (hnan : cellApply maps "nan" = "nan") (df : DataFrame) (i : Nat)
    (c : String × List Val) (hget : df.cols[i]? = some c)
    (hobj : isObjectCol c.2 = true) :
    ∃ vs, (applyMapsToDf maps df).cols[i]? = some (c.1, vs)
    ∧ (∀ v ∈ vs, v.isNull = false)
    ∧ ∀ r : Nat, c.2[r]? = some Val.vnull → vs[r]? = some (Val.vstr "nan") := by
  refine ⟨c.2.map (fun v => Val.vstr (cellApply maps (valToString v))), ?_, ?_, ?_⟩
  · simp only [applyMapsToDf, List.getElem?_map, hget, Option.map_some']
    unfold mapColIfObject
    rw [if_pos hobj, applyMapsToCol_ne_nil maps hne]
  · intro v hv
    obtain ⟨w, -, rfl⟩ := List.mem_map.mp hv
    rfl
  · intro r hr
    rw [List.getElem?_map, hr]
    simp only [Option.map_some']
    rw [show valToString Val.vnull = "nan" from rfl, hnan]

/-- C10: after the rating pass, the text-standardization pass, or the
extractor fix pass, every cell of a text-typed column is a string — no
null survives — and every formerly null cell carries the literal string
"nan". -/
theorem C10_nulls_to_nan (df : DataFrame) (i : Nat) (c : String × List Val)
    (hget : df.cols[i]? = some c) (hobj : isObjectCol c.2 = true) :
    (∃ vs, (apply_rating_mappings df).cols[i]? = some (c.1, vs)
      ∧ (∀ v ∈ vs, v.isNull = false)
      ∧ ∀ r : Nat, c.2[r]? = some Val.vnull → vs[r]? = some (Val.vstr "nan"))
  ∧ (∃ vs, (apply_text_standardization df).cols[i]? = some (c.1, vs)
      ∧ (∀ v ∈ vs, v.isNull = false)
      ∧ ∀ r : Nat, c.2[r]? = some Val.vnull → vs[r]? = some (Val.vstr "nan"))
  ∧ (∃ vs, (applyEncodingFixes df).cols[i]? = some (c.1, vs)
      ∧ (∀ v ∈ vs, v.isNull = false)
      ∧ ∀ r : Nat, c.2[r]? = some Val.vnull → vs[r]? = some (Val.vstr "nan")) :=
  ⟨applyMapsToDf_null_cells RATING_MAPPINGS (by decide) (by decide) df i c hget hobj,
   applyMapsToDf_null_cells TEXT_STANDARDIZATION (by decide) (by decide) df i c hget hobj,
   applyMapsToDf_null_cells ENCODING_FIXES (by decide) (by decide) df i c hget hobj⟩

/-- C10 witness: the theorem applied to a one-column dataset whose text
column holds a null next to a string: the null comes out as "nan". -/
theorem C10_nulls_to_nan_witness :
    ∃ vs, (apply_rating_mappings ⟨[("c", [Val.vnull, Val.vstr "x"])]⟩).cols[0]?
        = some ("c", vs)
      ∧ vs[0]? = some (Val.vstr "nan") := by
  obtain ⟨vs, h1, h2, h3⟩ := (C10_nulls_to_nan ⟨[("c", [Val.vnull, Val.vstr "x"])]⟩
    0 ("c", [Val.vnull, Val.vstr "x"]) rfl (by decide)).1
  exact ⟨vs, h1, h3 0 rfl⟩

/-! ## Replacement-loop theory for the idempotence claim -/

/-- Replacing a pattern by itself changes nothing. -/
theorem replListF_self (p : List Char) :
    ∀ fuel s, s.length ≤ fuel → replListF p p fuel s = s := by
  intro fuel
  induction fuel with
  | zero =>
    intro s hs
    cases s with
    | nil => rfl
    | cons c cs => simp at hs
  | succ fuel ih =>
    intro s hs
    cases s with
    | nil => rfl
    | cons c cs =>
      simp only [replListF]
      by_cases hcond : (!p.isEmpty && p.isPrefixOf (c :: cs)) = true
      · rw [if_pos hcond]
        have hpre : p <+: (c :: cs) :=
          List.isPrefixOf_iff_prefix.mp (Bool.and_elim_right hcond)
        have hpne : p ≠ [] := by
          intro hpe
          subst hpe
          simp at hcond
        obtain ⟨t, ht⟩ := hpre
        have hdrop : (c :: cs).drop p.length = t := by
          rw [← ht, List.drop_left]
        rw [hdrop, ih t ?_, ht]
        have hlp : 1 ≤ p.length := List.length_pos.mpr hpne
        have := congrArg List.length ht
        simp only [List.length_append, List.length_cons] at this hs ⊢
        omega
      · rw [if_neg hcond]
        have : cs.length ≤ fuel := by
          simp only [List.length_cons] at hs
          omega
        rw [ih cs this]

/-- Replacing a pattern that does not occur changes nothing. -/
theorem replListF_no_occ (p r : List Char) :
    ∀ fuel s, s.length ≤ fuel → ¬ p <:+: s → replListF p r fuel s = s := by
  intro fuel
  induction fuel with
  | zero =>
    intro s hs _
    cases s with
    | nil => rfl
    | cons c cs => simp at hs
  | succ fuel ih =>
    intro s hs hno
    cases s with
    | nil => rfl
    | cons c cs =>
      simp only [replListF]
      by_cases hcond : (!p.isEmpty && p.isPrefixOf (c :: cs)) = true
      · exact absurd
          ((List.isPrefixOf_iff_prefix.mp (Bool.and_elim_right hcond)).isInfix) hno
      · rw [if_neg hcond]
        have h1 : cs.length ≤ fuel := by
          simp only [List.length_cons] at hs
          omega
        have h2 : ¬ p <:+: cs := fun hin =>
          hno (List.infix_cons_iff.mpr (Or.inr hin))
        rw [ih cs h1 h2]

/-- Splitting a prefix of an append: it lies in the left part or covers it. -/
theorem prefix_append_split {α : Type} (x : List α) :
    ∀ {y l : List α}, l <+: x ++ y → l <+: x ∨ ∃ b, l = x ++ b ∧ b <+: y := by
  induction x with
  | nil =>
    intro y l h
    exact Or.inr ⟨l, by simp, h⟩
  | cons c x' ih =>
    intro y l h
    cases l with
    | nil => exact Or.inl List.nil_prefix
    | cons d l' =>
      rw [List.cons_append, List.cons_prefix_cons] at h
      obtain ⟨rfl, h'⟩ := h
      rcases ih h' with h1 | ⟨b, rfl, hb⟩
      · exact Or.inl (List.cons_prefix_cons.mpr ⟨rfl, h1⟩)
      · exact Or.inr ⟨b, by simp, hb⟩

/-- Splitting a contiguous run inside an append: it lies in one part or
crosses the junction, contributing a nonempty suffix of the left part and
a nonempty prefix of the right part. -/
theorem infix_append_split {α : Type} (x : List α) :
    ∀ {y l : List α}, l <:+: x ++ y →
      l <:+: x ∨ l <:+: y ∨
        ∃ a b, l = a ++ b ∧ a ≠ [] ∧ b ≠ [] ∧ a <:+ x ∧ b <+: y := by
  induction x with
  | nil =>
    intro y l h
    exact Or.inr (Or.inl (by simpa using h))
  | cons c x' ih =>
    intro y l h
    rw [List.cons_append] at h
    rcases List.infix_cons_iff.mp h with hpre | hin
    · cases l with
      | nil => exact Or.inl List.nil_infix
      | cons d l' =>
        rw [List.cons_prefix_cons] at hpre
        obtain ⟨rfl, h'⟩ := hpre
        rcases prefix_append_split x' h' with h1 | ⟨b, rfl, hb⟩
        · exact Or.inl (List.cons_prefix_cons.mpr ⟨rfl, h1⟩).isInfix
        · by_cases hbe : b = []
          · subst hbe
            exact Or.inl (by simpa using List.infix_refl (d :: x'))
          · exact Or.inr (Or.inr ⟨d :: x', b, by simp, by simp, hbe,
              List.suffix_refl _, hb⟩)
    · rcases ih hin with h1 | h2 | ⟨a, b, rfl, ha, hb, hax, hby⟩
      · exact Or.inl (List.infix_cons_iff.mpr (Or.inr h1))
      · exact Or.inr (Or.inl h2)
      · exact Or.inr (Or.inr ⟨a, b, rfl, ha, hb,
          hax.trans (List.suffix_cons c x'), hby⟩)

/-- A nonempty suffix is a drop at a position below the length. -/
theorem suffix_form {α : Type} {a r : List α} (h : a <:+ r) (ha : a ≠ []) :
    ∃ k, k < r.length ∧ a = r.drop k := by
  obtain ⟨u, hu⟩ := h
  refine ⟨u.length, ?_, by rw [← hu, List.drop_left]⟩
  have := congrArg List.length hu
  simp only [List.length_append] at this
  have : 0 < a.length := List.length_pos.mpr ha
  omega

/-- Separation condition between a forbidden pattern `p` and a replacement
string `r`: `p` is nonempty, `r` is nonempty, `p` does not occur inside
`r`, no nonempty suffix of `r` is a prefix of `p`, and the first character
of `r` does not occur in `p` at all.  Under this condition no occurrence
of `p` can touch an inserted copy of `r`. -/
def SepCond (p r : List Char) : Prop :=
  p ≠ [] ∧ r ≠ [] ∧ ¬ p <:+: r ∧ (∀ k, k < r.length → ¬ ((r.drop k) <+: p))
  ∧ (∀ ch ∈ r.take 1, ch ∉ p)

instance (p r : List Char) : Decidable (SepCond p r) := by
  unfold SepCond
  infer_instance

/-- Any nonempty prefix of the replacement output that is a suffix-part of
`p` is already a prefix of the input: it cannot begin inside an inserted
replacement block, whose first character never occurs in `p`. -/
theorem repl_prefix_pullback (p p' r' : List Char) (hr' : r' ≠ [])
    (hh : ∀ ch ∈ r'.take 1, ch ∉ p) :
    ∀ fuel s b, s.length ≤ fuel → b ≠ [] → b <:+ p →
      b <+: replListF p' r' fuel s → b <+: s := by
  intro fuel
  induction fuel with
  | zero =>
    intro s b hs hb _ hpre
    cases s with
    | nil =>
      simp only [replListF] at hpre
      exact absurd (List.prefix_nil.mp hpre) hb
    | cons c cs => simp at hs
  | succ fuel ih =>
    intro s b hs hb hbp hpre
    cases s with
    | nil =>
      simp only [replListF] at hpre
      exact absurd (List.prefix_nil.mp hpre) hb
    | cons c cs =>
      simp only [replListF] at hpre
      by_cases hcond : (!p'.isEmpty && p'.isPrefixOf (c :: cs)) = true
      · rw [if_pos hcond] at hpre
        cases b with
        | nil => exact absurd rfl hb
        | cons hb0 b' =>
          cases r' with
          | nil => exact absurd rfl hr'
          | cons hr0 r'' =>
            rw [List.cons_append, List.cons_prefix_cons] at hpre
            obtain ⟨rfl, -⟩ := hpre
            have hmem : hb0 ∈ p := hbp.subset (by simp)
            exact absurd hmem (hh hb0 (by simp))
      · rw [if_neg hcond] at hpre
        cases b with
        | nil => exact absurd rfl hb
        | cons b0 b' =>
          rw [List.cons_prefix_cons] at hpre
          obtain ⟨rfl, hpre'⟩ := hpre
          by_cases hb' : b' = []
          · subst hb'
            exact List.cons_prefix_cons.mpr ⟨rfl, List.nil_prefix⟩
          · have hbp' : b' <:+ p := (List.suffix_cons b0 b').trans hbp
            have hfs : cs.length ≤ fuel := by
              simp only [List.length_cons] at hs
              omega
            exact List.cons_prefix_cons.mpr ⟨rfl, ih cs b' hfs hb' hbp' hpre'⟩

/-- Core no-occurrence theorem: after replacing `p'` by `r'`, the pattern
`p` does not occur in the output, provided `p` and `r'` satisfy the
separation condition and either this replacement removes `p` itself
(`p' = p`) or `p` did not occur in the input. -/
theorem repl_no_occurrence (p p' r' : List Char) (hc : SepCond p r') :
    ∀ fuel s, s.length ≤ fuel → (p' = p ∨ ¬ p <:+: s) →
      ¬ p <:+: replListF p' r' fuel s := by
  obtain ⟨hp, hr', hnotin, hsufD, hh⟩ := hc
  have hsuf : ∀ a, a ≠ [] → a <:+ r' → ¬ a <+: p := by
    intro a ha hax hap
    obtain ⟨k, hk, rfl⟩ := suffix_form hax ha
    exact hsufD k hk hap
  intro fuel
  induction fuel with
  | zero =>
    intro s hs hmode hocc
    cases s with
    | nil =>
      simp only [replListF] at hocc
      exact hp (List.infix_nil.mp hocc)
    | cons c cs => simp at hs
  | succ fuel ih =>
    intro s hs hmode hocc
    cases s with
    | nil =>
      simp only [replListF] at hocc
      exact hp (List.infix_nil.mp hocc)
    | cons c cs =>
      simp only [replListF] at hocc
      by_cases hcond : (!p'.isEmpty && p'.isPrefixOf (c :: cs)) = true
      · rw [if_pos hcond] at hocc
        have hp'ne : p' ≠ [] := by
          intro hpe
          subst hpe
          simp at hcond
        have hfs : ((c :: cs).drop p'.length).length ≤ fuel := by
          have hlp : 1 ≤ p'.length := List.length_pos.mpr hp'ne
          simp only [List.length_drop, List.length_cons] at *
          omega
        have hmode' : p' = p ∨ ¬ p <:+: (c :: cs).drop p'.length := by
          rcases hmode with h | h
          · exact Or.inl h
          · exact Or.inr (fun hin =>
              h (hin.trans (List.drop_suffix _ _).isInfix))
        rcases infix_append_split r' hocc with h1 | h2 | ⟨a, b, rfl, ha, hb, hax, hby⟩
        · exact hnotin h1
        · exact ih _ hfs hmode' h2
        · exact hsuf a ha hax (List.prefix_append a b)
      · rw [if_neg hcond] at hocc
        have hfs : cs.length ≤ fuel := by
          simp only [List.length_cons] at hs
          omega
        rcases List.infix_cons_iff.mp hocc with hpre | hin
        · have hout : replListF p' r' (fuel + 1) (c :: cs)
              = c :: replListF p' r' fuel cs := by
            simp only [replListF]
            rw [if_neg hcond]
          have hps : p <+: (c :: cs) :=
            repl_prefix_pullback p p' r' hr' hh (fuel + 1) (c :: cs) p hs hp
              (List.suffix_refl p) (by rw [hout]; exact hpre)
          rcases hmode with h | h
          · have hp'2 : p' ≠ [] := by rw [h]; exact hp
            have hpref : List.isPrefixOf p' (c :: cs) = true := by
              rw [h]
              exact List.isPrefixOf_iff_prefix.mpr hps
            have hne : (!p'.isEmpty) = true := by
              cases p' with
              | nil => exact absurd rfl hp'2
              | cons a l => rfl
            exact hcond (by rw [hne, hpref]; rfl)
          · exact h hps.isInfix
        · have hmode' : p' = p ∨ ¬ p <:+: cs := by
            rcases hmode with h | h
            · exact Or.inl h
            · exact Or.inr (fun hin => h (List.infix_cons_iff.mpr (Or.inr hin)))
          exact ih cs hfs hmode' hin

/-- Replacing a pattern by itself is the identity on strings. -/
theorem pyReplace_self (s p : String) : pyReplace s p p = s := by
  unfold pyReplace
  rw [replListF_self p.data s.data.length s.data (le_refl _)]

/-- Replacing a pattern that does not occur is the identity on strings. -/
theorem pyReplace_no_occ (s pat rep : String) (h : ¬ pat.data <:+: s.data) :
    pyReplace s pat rep = s := by
  unfold pyReplace
  rw [replListF_no_occ pat.data rep.data s.data.length s.data (le_refl _) h]

/-- Character data of a replacement result. -/
theorem pyReplace_data (s pat rep : String) :
    (pyReplace s pat rep).data
      = replListF pat.data rep.data s.data.length s.data := rfl

/-- After replacing a separated pattern, the pattern no longer occurs. -/
theorem pyReplace_no_occ_self (p r s : String) (hc : SepCond p.data r.data) :
    ¬ p.data <:+: (pyReplace s p r).data := by
  rw [pyReplace_data]
  exact repl_no_occurrence p.data p.data r.data hc _ s.data (le_refl _) (Or.inl rfl)

/-- Replacing another separated pattern cannot introduce an absent one. -/
theorem pyReplace_no_occ_pres (p p' r' s : String) (hc : SepCond p.data r'.data)
    (hs : ¬ p.data <:+: s.data) :
    ¬ p.data <:+: (pyReplace s p' r').data := by
  rw [pyReplace_data]
  exact repl_no_occurrence p.data p'.data r'.data hc _ s.data (le_refl _) (Or.inr hs)

/-- The nine identity entries of the rating table drop out: on any cell
string the table acts as its five non-identity replacements in
declaration order. -/
theorem cellApply_RM_red (s : String) :
    cellApply RATING_MAPPINGS s
      = pyReplace (pyReplace (pyReplace (pyReplace (pyReplace s
          "Trè byen" "5 Etwal") "Byen" "4 Etwal") "Pasab" "3 Etwal")
            "Pa bon" "2 Etwal") "Pat bon ditou" "1 Etwal" := by
  simp only [cellApply, RATING_MAPPINGS, List.foldl_cons, List.foldl_nil]
  rw [pyReplace_self, pyReplace_self, pyReplace_self, pyReplace_self,
    pyReplace_self, pyReplace_self, pyReplace_self, pyReplace_self, pyReplace_self]

/-- After one pass of the rating table, no source phrase of a non-identity
mapping occurs anywhere in a cell: the replacements insert strings that
start with a digit and never border-complete a source phrase. -/
theorem cellApply_RM_no_occ (s : String) :
    ¬ ("Trè byen" : String).data <:+: (cellApply RATING_MAPPINGS s).data
  ∧ ¬ ("Byen" : String).data <:+: (cellApply RATING_MAPPINGS s).data
  ∧ ¬ ("Pasab" : String).data <:+: (cellApply RATING_MAPPINGS s).data
  ∧ ¬ ("Pa bon" : String).data <:+: (cellApply RATING_MAPPINGS s).data
  ∧ ¬ ("Pat bon ditou" : String).data <:+: (cellApply RATING_MAPPINGS s).data := by
  rw [cellApply_RM_red]
  refine ⟨?_, ?_, ?_, ?_, ?_⟩
  · apply pyReplace_no_occ_pres "Trè byen" "Pat bon ditou" "1 Etwal" _ (by decide)
    apply pyReplace_no_occ_pres "Trè byen" "Pa bon" "2 Etwal" _ (by decide)
    apply pyReplace_no_occ_pres "Trè byen" "Pasab" "3 Etwal" _ (by decide)
    apply pyReplace_no_occ_pres "Trè byen" "Byen" "4 Etwal" _ (by decide)
    exact pyReplace_no_occ_self "Trè byen" "5 Etwal" _ (by decide)
  · apply pyReplace_no_occ_pres "Byen" "Pat bon ditou" "1 Etwal" _ (by decide)
    apply pyReplace_no_occ_pres "Byen" "Pa bon" "2 Etwal" _ (by decide)
    apply pyReplace_no_occ_pres "Byen" "Pasab" "3 Etwal" _ (by decide)
    exact pyReplace_no_occ_self "Byen" "4 Etwal" _ (by decide)
  · apply pyReplace_no_occ_pres "Pasab" "Pat bon ditou" "1 Etwal" _ (by decide)
    apply pyReplace_no_occ_pres "Pasab" "Pa bon" "2 Etwal" _ (by decide)
    exact pyReplace_no_occ_self "Pasab" "3 Etwal" _ (by decide)
  · apply pyReplace_no_occ_pres "Pa bon" "Pat bon ditou" "1 Etwal" _ (by decide)
    exact pyReplace_no_occ_self "Pa bon" "2 Etwal" _ (by decide)
  · exact pyReplace_no_occ_self "Pat bon ditou" "1 Etwal" _ (by decide)

/-- Idempotence of the rating table on one cell string. -/
theorem cellApply_RM_idem (s : String) :
    cellApply RATING_MAPPINGS (cellApply RATING_MAPPINGS s)
      = cellApply RATING_MAPPINGS s := by
  obtain ⟨h1, h2, h3, h4, h5⟩ := cellApply_RM_no_occ s
  rw [cellApply_RM_red (cellApply RATING_MAPPINGS s)]
  rw [pyReplace_no_occ _ _ _ h1, pyReplace_no_occ _ _ _ h2,
    pyReplace_no_occ _ _ _ h3, pyReplace_no_occ _ _ _ h4,
    pyReplace_no_occ _ _ _ h5]

/-- Positive branch of the dtype guard, with the pair projections
reduced. -/
theorem mapColIfObject_pos (maps : List (String × String)) (n : String)
    (vs : List Val) (h : isObjectCol vs = true) :
    mapColIfObject maps (n, vs) = (n, applyMapsToCol maps vs) := by
  show (if isObjectCol vs = true then (n, applyMapsToCol maps vs) else (n, vs)) = _
  rw [if_pos h]

/-- Negative branch of the dtype guard, with the pair projections
reduced. -/
theorem mapColIfObject_neg (maps : List (String × String)) (n : String)
    (vs : List Val) (h : ¬ isObjectCol vs = true) :
    mapColIfObject maps (n, vs) = (n, vs) := by
  show (if isObjectCol vs = true then (n, applyMapsToCol maps vs) else (n, vs)) = _
  rw [if_neg h]

/-- Idempotence of the guarded per-column transformation of the rating
pass: a second application leaves any column unchanged. -/
theorem mapColIfObject_RM_idem (c : String × List Val) :
    mapColIfObject RATING_MAPPINGS (mapColIfObject RATING_MAPPINGS c)
      = mapColIfObject RATING_MAPPINGS c := by
  obtain ⟨n, vs⟩ := c
  by_cases hobj : isObjectCol vs = true
  · cases vs with
    | nil => simp [isObjectCol] at hobj
    | cons v vs' =>
      rw [mapColIfObject_pos RATING_MAPPINGS n (v :: vs') hobj]
      rw [applyMapsToCol_ne_nil RATING_MAPPINGS (by decide) (v :: vs')]
      have hA : isObjectCol ((v :: vs').map (fun v =>
          Val.vstr (cellApply RATING_MAPPINGS (valToString v)))) = true := by
        simp [isObjectCol, Val.isStr]
      rw [mapColIfObject_pos RATING_MAPPINGS n _ hA]
      refine congrArg (fun l => (n, l)) ?_
      rw [applyMapsToCol_ne_nil RATING_MAPPINGS (by decide), List.map_map]
      apply List.map_congr_left
      intro w _
      simp only [Function.comp_apply]
      show Val.vstr (cellApply RATING_MAPPINGS
        (cellApply RATING_MAPPINGS (valToString w))) = _
      rw [cellApply_RM_idem]
  · rw [mapColIfObject_neg RATING_MAPPINGS n vs hobj,
      mapColIfObject_neg RATING_MAPPINGS n vs hobj]

/-- C6: applying the rating-token mapping pass twice equals applying it
once, on every dataset: after the first pass no source phrase of a
non-identity mapping survives in any text cell, the identity mappings
never change anything, and untouched columns stay untouched. -/
theorem C6_rating_idempotent (df : DataFrame) :
    apply_rating_mappings (apply_rating_mappings df) = apply_rating_mappings df := by
  unfold apply_rating_mappings applyMapsToDf
  congr 1
  show List.map _ (List.map _ df.cols) = List.map _ df.cols
  rw [List.map_map]
  exact List.map_congr_left (fun c _ => mapColIfObject_RM_idem c)

end Etl
